import Mathlib

/-!
Verification development for the Supabase MCP table-store server
(`src/supabase_server.py`).

The server keeps a process-wide mutable map `tables` from table names to
ordered lists of JSON records, and a single dispatcher `handle_mcp_request`
that routes an operation name (`query`, `insert`, `update`, `delete`,
`list_tables`) to straight-line list-manipulation code.

The shallow embedding below mirrors that code:

* JSON values are the inductive `Json` (numbers as `Int`; the seed data and
  all behavior the claims exercise use only strings).
* A Python dict is an insertion-ordered association list with unique keys;
  dict read/write (`d[k]`, `d.get(k)`, `d[k] = v`) become `getField`,
  `setField` on `List (String × Json)` (first occurrence wins, assignment
  rewrites in place or appends at the end, as CPython dicts do).
* The shared store plus the stream of identifiers consumed by
  `str(uuid.uuid4())` form `StoreState`; `uuid.uuid4` (a library call, not
  code of this repository) is modelled as an injective fresh-identifier
  supply driven by a counter (`freshId`), matching the spec's
  "freshly generated unique id".
* The HTTP request body is `Body`: absent/empty (parsed as `{}`), present
  but invalid JSON (raises `json.JSONDecodeError`), or a parsed JSON object
  of parameters.
* The dispatcher becomes `handle : String → Body → StoreState →
  Option (Json × StoreState)`; `none` models the paths where the Python
  code raises an exception that the top-level `except Exception` clause
  turns into `{"error": str(e)}` (e.g. iterating a non-list `records` or
  calling `.items()` on a non-dict) — no claim depends on those paths.
  Python `str()` used in f-string error messages is modelled by `pyStr`.
-/

/-- JSON values as stored in the server's tables. Numbers are modelled as
`Int`; every value the seed data and the claims manipulate is a string,
boolean, null, array or object. -/
inductive Json where
  | null
  | bool (b : Bool)
  | num (n : Int)
  | str (s : String)
  | arr (elems : List Json)
  | obj (fields : List (String × Json))

mutual

/-- Structural (deep) equality test on JSON values, mirroring Python `==`
on parsed JSON data. -/
def Json.beq : Json → Json → Bool
  | .null, .null => true
  | .bool a, .bool b => a == b
  | .num a, .num b => a == b
  | .str a, .str b => a == b
  | .arr xs, .arr ys => Json.beqList xs ys
  | .obj fs, .obj gs => Json.beqFields fs gs
  | _, _ => false

/-- Elementwise `Json.beq` on lists. -/
def Json.beqList : List Json → List Json → Bool
  | [], [] => true
  | x :: xs, y :: ys => Json.beq x y && Json.beqList xs ys
  | _, _ => false

/-- Pairwise `Json.beq` on object field lists. -/
def Json.beqFields : List (String × Json) → List (String × Json) → Bool
  | [], [] => true
  | (k, v) :: fs, (l, w) :: gs => k == l && Json.beq v w && Json.beqFields fs gs
  | _, _ => false

end

mutual

theorem Json.beq_iff : ∀ a b : Json, Json.beq a b = true ↔ a = b
  | .null, .null => by simp [Json.beq]
  | .bool a, .bool b => by simp [Json.beq]
  | .num a, .num b => by simp [Json.beq]
  | .str a, .str b => by simp [Json.beq]
  | .arr xs, .arr ys => by simp [Json.beq, Json.beqList_iff xs ys]
  | .obj fs, .obj gs => by simp [Json.beq, Json.beqFields_iff fs gs]
  | .null, .bool _ | .null, .num _ | .null, .str _ | .null, .arr _ | .null, .obj _ => by simp [Json.beq]
  | .bool _, .null | .bool _, .num _ | .bool _, .str _ | .bool _, .arr _ | .bool _, .obj _ => by simp [Json.beq]
  | .num _, .null | .num _, .bool _ | .num _, .str _ | .num _, .arr _ | .num _, .obj _ => by simp [Json.beq]
  | .str _, .null | .str _, .bool _ | .str _, .num _ | .str _, .arr _ | .str _, .obj _ => by simp [Json.beq]
  | .arr _, .null | .arr _, .bool _ | .arr _, .num _ | .arr _, .str _ | .arr _, .obj _ => by simp [Json.beq]
  | .obj _, .null | .obj _, .bool _ | .obj _, .num _ | .obj _, .str _ | .obj _, .arr _ => by simp [Json.beq]

theorem Json.beqList_iff : ∀ xs ys : List Json, Json.beqList xs ys = true ↔ xs = ys
  | [], [] => by simp [Json.beqList]
  | x :: xs, y :: ys => by
      simp [Json.beqList, Json.beq_iff x y, Json.beqList_iff xs ys]
  | [], _ :: _ => by simp [Json.beqList]
  | _ :: _, [] => by simp [Json.beqList]

theorem Json.beqFields_iff : ∀ fs gs : List (String × Json), Json.beqFields fs gs = true ↔ fs = gs
  | [], [] => by simp [Json.beqFields]
  | (k, v) :: fs, (l, w) :: gs => by
      simp [Json.beqFields, Json.beq_iff v w, Json.beqFields_iff fs gs, and_assoc]
  | [], _ :: _ => by simp [Json.beqFields]
  | _ :: _, [] => by simp [Json.beqFields]

end

instance : DecidableEq Json := fun a b => decidable_of_iff _ (Json.beq_iff a b)

/-- Python truthiness (`if x:` / `if not x:`) restricted to JSON-representable
values: `None`, `False`, `0`, `""`, `[]` and `{}` are falsy, everything else
truthy. -/
def Json.truthy : Json → Bool
  | .null => false
  | .bool b => b
  | .num n => n != 0
  | .str s => !s.isEmpty
  | .arr xs => !xs.isEmpty
  | .obj fs => !fs.isEmpty

/-- A record: a Python dict parsed from JSON, i.e. an insertion-ordered
association list with (in any state the server actually builds) unique
keys. -/
abbrev Record := List (String × Json)

/-- Dict read `d.get(k)` / `k in d` / `d[k]`: value at the first occurrence
of key `k`. -/
def getField (r : Record) (k : String) : Option Json :=
  match r with
  | [] => none
  | (k1, v) :: rest => if k1 = k then some v else getField rest k

/-- Dict write `d[k] = v`: rewrite the value at an existing key in place,
otherwise append the new key at the end — CPython dict assignment
semantics. -/
def setField (r : Record) (k : String) (v : Json) : Record :=
  match r with
  | [] => [(k, v)]
  | (k1, v1) :: rest => if k1 = k then (k1, v) :: rest else (k1, v1) :: setField rest k v

/-- The `update` merge loop: `for key, value in updates.items():
tables[table_name][i][key] = value`. -/
def mergeUpdates (r : Record) (updates : List (String × Json)) : Record :=
  updates.foldl (fun acc kv => setField acc kv.1 kv.2) r

/-- The store: the module-level `tables` dict, mapping table names to ordered
record lists. Keys are `Json` because the handler inserts whatever value the
`table` parameter holds; every seeded or claim-relevant key is a string. -/
abbrev Store := List (Json × List Record)

/-- `table_name in tables` / `tables[table_name]`. -/
def storeGet (s : Store) (k : Json) : Option (List Record) :=
  match s with
  | [] => none
  | (k1, v) :: rest => if k1 = k then some v else storeGet rest k

/-- `tables[table_name] = recs`: rewrite in place or append the key at the
end (CPython dict assignment). -/
def storeSet (s : Store) (k : Json) (recs : List Record) : Store :=
  match s with
  | [] => [(k, recs)]
  | (k1, v1) :: rest => if k1 = k then (k1, recs) :: rest else (k1, v1) :: storeSet rest k recs

/-- `list(tables.keys())`, in insertion order. -/
def storeKeys (s : Store) : List Json := s.map (fun kv => kv.1)

/-- The filter loop of `query`: a record matches when every `(key, value)`
pair of `filters` has `key` present in the record with a structurally equal
value (`key not in item or item[key] != value` fails the match). -/
def matchesFilters (r : Record) (fs : List (String × Json)) : Bool :=
  fs.all (fun kv => decide (getField r kv.1 = some kv.2))

/-- Modelled from the spec: `str(uuid.uuid4())` is a library call, not code of
this repository; the spec describes it as "a freshly generated unique id"
(UUID-v4 textual form). It is modelled as an injective supply of non-empty
fresh identifiers drawn from a per-process counter threaded through
`StoreState`; only injectivity and non-emptiness of the supply matter, so the
counter is encoded in the identifier's length. -/
def freshId (n : Nat) : String := "uuid-" ++ String.mk (List.replicate n 'x')

/-- Process state: the shared `tables` dict plus the counter driving the
fresh-id supply that models `uuid.uuid4`. -/
structure StoreState where
  tables : Store
  gen : Nat
deriving DecidableEq

/-- The seed data the module initializes `tables` with. -/
def seedTables : Store := [
  (Json.str "users",
    [[("id", Json.str "1"), ("name", Json.str "John Doe"), ("email", Json.str "john@example.com")],
     [("id", Json.str "2"), ("name", Json.str "Jane Smith"), ("email", Json.str "jane@example.com")]]),
  (Json.str "posts",
    [[("id", Json.str "1"), ("title", Json.str "First Post"), ("content", Json.str "Hello World"),
      ("user_id", Json.str "1")],
     [("id", Json.str "2"), ("title", Json.str "Second Post"), ("content", Json.str "Another post"),
      ("user_id", Json.str "2")]]),
  (Json.str "comments",
    [[("id", Json.str "1"), ("post_id", Json.str "1"), ("user_id", Json.str "2"),
      ("content", Json.str "Great post!")],
     [("id", Json.str "2"), ("post_id", Json.str "1"), ("user_id", Json.str "1"),
      ("content", Json.str "Thanks!")]])]

/-- The state at process start. -/
def seedState : StoreState := ⟨seedTables, 0⟩

mutual

/-- Python `str()` of a JSON-representable value, as used by the f-string
error messages (`f"Table {table_name} not found"`). At top level a string
interpolates without quotes; nested containers use `repr`. -/
def pyStr : Json → String
  | .null => "None"
  | .bool true => "True"
  | .bool false => "False"
  | .num n => toString n
  | .str s => s
  | .arr xs => "[" ++ pyStrList xs ++ "]"
  | .obj fs => "\x7b" ++ pyStrFields fs ++ "\x7d"

/-- Python `repr()` of a JSON-representable value (strings get quoted). -/
def pyRepr : Json → String
  | .null => "None"
  | .bool true => "True"
  | .bool false => "False"
  | .num n => toString n
  | .str s => "'" ++ s ++ "'"
  | .arr xs => "[" ++ pyStrList xs ++ "]"
  | .obj fs => "\x7b" ++ pyStrFields fs ++ "\x7d"

/-- Comma-separated `repr`s of list elements. -/
def pyStrList : List Json → String
  | [] => ""
  | [x] => pyRepr x
  | x :: rest => pyRepr x ++ ", " ++ pyStrList rest

/-- Comma-separated `repr`s of dict entries. -/
def pyStrFields : List (String × Json) → String
  | [] => ""
  | [(k, v)] => "'" ++ k ++ "': " ++ pyRepr v
  | (k, v) :: rest => "'" ++ k ++ "': " ++ pyRepr v ++ ", " ++ pyStrFields rest

end

/-- `{"error": msg}`. -/
def errObj (msg : String) : Json := Json.obj [("error", Json.str msg)]

/-- `{"success": True}`. -/
def successObj : Json := Json.obj [("success", Json.bool true)]

/-- The insert loop: for each record, `record_id = record.get("id",
str(uuid.uuid4()))`; `record["id"] = record_id`; append the record and
collect `record_id`. The counter advances once per record because Python
evaluates the `.get` default (the `uuid.uuid4()` call) eagerly for every
record. A non-dict element makes Python raise (`none`). -/
def insertLoop : List Json → Nat → Option (List Record × List Json × Nat)
  | [], g => some ([], [], g)
  | Json.obj r :: rest, g =>
      let rid := (getField r "id").getD (Json.str (freshId g))
      let r2 := setField r "id" rid
      match insertLoop rest (g + 1) with
      | some (recs, ids, g2) => some (r2 :: recs, rid :: ids, g2)
      | none => none
  | _ :: _, _ => none

/-- Outcome of the `update` scan over a table. -/
inductive UpdRes where
  | notFound
  | updated (recs : List Record)
  | exc
deriving DecidableEq

/-- The `update` for-else scan: on the first record whose `"id"` equals
`rid`, merge `updates` into it and stop; if the loop finishes without a
match the else-branch reports not-found. `updates.items()` on a non-dict
raises (`UpdRes.exc`), and only at the moment a record matches. -/
def updateFirst (recs : List Record) (rid : Json) (updates : Json) : UpdRes :=
  match recs with
  | [] => UpdRes.notFound
  | r :: rest =>
    if getField r "id" = some rid then
      match updates with
      | Json.obj us => UpdRes.updated (mergeUpdates r us :: rest)
      | _ => UpdRes.exc
    else
      match updateFirst rest rid updates with
      | UpdRes.updated rs => UpdRes.updated (r :: rs)
      | x => x

/-- The `delete` for-else scan: `del tables[table_name][i]` at the first
record whose `"id"` equals `rid`, then stop; `none` is the else-branch
(no match). -/
def deleteFirst (recs : List Record) (rid : Json) : Option (List Record) :=
  match recs with
  | [] => none
  | r :: rest =>
    if getField r "id" = some rid then some rest
    else
      match deleteFirst rest rid with
      | some rs => some (r :: rs)
      | none => none

/-- The dispatcher body of `handle_mcp_request` after the request body has
been parsed into the parameter dict `params`. Returns the JSON response and
the new store state; `none` models the paths where Python raises an
exception that the top-level handler converts to `{"error": str(e)}`
(iterating a non-list `records`, `.items()` on a non-dict, a non-dict
record element). -/
def handleParams (fn : String) (params : List (String × Json)) (st : StoreState) :
    Option (Json × StoreState) :=
  if fn = "query" then
    let tableName := (getField params "table").getD Json.null
    let filters := (getField params "filters").getD (Json.obj [])
    if !tableName.truthy then some (errObj "table parameter is required", st)
    else
      match storeGet st.tables tableName with
      | none => some (errObj ("Table " ++ pyStr tableName ++ " not found"), st)
      | some recs =>
        if filters.truthy then
          match filters with
          | Json.obj fs =>
              some (Json.obj [("data", Json.arr ((recs.filter
                (fun r => matchesFilters r fs)).map Json.obj))], st)
          | _ => none
        else some (Json.obj [("data", Json.arr (recs.map Json.obj))], st)
  else if fn = "insert" then
    let tableName := (getField params "table").getD Json.null
    let records := (getField params "records").getD (Json.arr [])
    if !tableName.truthy then some (errObj "table parameter is required", st)
    else if !records.truthy then some (errObj "records parameter is required", st)
    else
      match records with
      | Json.arr rs =>
          match insertLoop rs st.gen with
          | some (newRecs, ids, g2) =>
              let existing := (storeGet st.tables tableName).getD []
              some (Json.obj [("ids", Json.arr ids), ("success", Json.bool true)],
                    ⟨storeSet st.tables tableName (existing ++ newRecs), g2⟩)
          | none => none
      | _ => none
  else if fn = "update" then
    let tableName := (getField params "table").getD Json.null
    let recordId := (getField params "id").getD Json.null
    let updates := (getField params "updates").getD (Json.obj [])
    if !tableName.truthy then some (errObj "table parameter is required", st)
    else if !recordId.truthy then some (errObj "id parameter is required", st)
    else if !updates.truthy then some (errObj "updates parameter is required", st)
    else
      match storeGet st.tables tableName with
      | none => some (errObj ("Table " ++ pyStr tableName ++ " not found"), st)
      | some recs =>
          match updateFirst recs recordId updates with
          | UpdRes.updated rs => some (successObj, ⟨storeSet st.tables tableName rs, st.gen⟩)
          | UpdRes.notFound =>
              some (errObj ("Record with id " ++ pyStr recordId ++ " not found in table "
                ++ pyStr tableName), st)
          | UpdRes.exc => none
  else if fn = "delete" then
    let tableName := (getField params "table").getD Json.null
    let recordId := (getField params "id").getD Json.null
    if !tableName.truthy then some (errObj "table parameter is required", st)
    else if !recordId.truthy then some (errObj "id parameter is required", st)
    else
      match storeGet st.tables tableName with
      | none => some (errObj ("Table " ++ pyStr tableName ++ " not found"), st)
      | some recs =>
          match deleteFirst recs recordId with
          | some rs => some (successObj, ⟨storeSet st.tables tableName rs, st.gen⟩)
          | none =>
              some (errObj ("Record with id " ++ pyStr recordId ++ " not found in table "
                ++ pyStr tableName), st)
  else if fn = "list_tables" then
    some (Json.obj [("tables", Json.arr (storeKeys st.tables))], st)
  else some (errObj ("Function " ++ fn ++ " not supported"), st)

/-- The HTTP request body as seen by `handle_mcp_request`: absent/empty
(`parameters = {}`), present but not valid JSON (`json.JSONDecodeError`),
or a parsed JSON object of parameters. -/
inductive Body where
  | empty
  | invalid
  | json (params : List (String × Json))

/-- The full `handle_mcp_request`: parse the body (an invalid body is caught
by the `except json.JSONDecodeError` clause regardless of the function
name), then dispatch on the function name. -/
def handle (fn : String) (body : Body) (st : StoreState) : Option (Json × StoreState) :=
  match body with
  | Body.invalid => some (errObj "Invalid JSON in request body", st)
  | Body.empty => handleParams fn [] st
  | Body.json ps => handleParams fn ps st

/-- The invariant of C9: every record of every table carries an `"id"` key
(with any value, including `null`). -/
def storeInv (s : Store) : Prop :=
  ∀ tn recs, (tn, recs) ∈ s → ∀ r ∈ recs, (getField r "id").isSome

/-- One successfully handled request: some function name and body take the
store from `st` to `st2`. -/
def stepRel (st st2 : StoreState) : Prop :=
  ∃ fn body resp, handle fn body st = some (resp, st2)

/-- `st2` is reachable from `st` by a sequence of successfully handled
requests. -/
def reachable : StoreState → StoreState → Prop := Relation.ReflTransGen stepRel

/-! ## Basic lemmas about dict operations -/

theorem getField_setField_self (r : Record) (k : String) (v : Json) :
    getField (setField r k v) k = some v := by
  induction r with
  | nil => simp [setField, getField]
  | cons p rest ih =>
      obtain ⟨k1, v1⟩ := p
      by_cases h : k1 = k
      · simp [setField, getField, h]
      · simp [setField, getField, h, ih]

theorem getField_setField_ne (r : Record) (k k1 : String) (v : Json) (h : k1 ≠ k) :
    getField (setField r k v) k1 = getField r k1 := by
  induction r with
  | nil => simp [setField, getField, Ne.symm h]
  | cons p rest ih =>
      obtain ⟨k2, v2⟩ := p
      by_cases h2 : k2 = k
      · subst h2
        simp [setField, getField, Ne.symm h]
      · simp [setField, getField, h2, ih]

theorem setField_eq_append (r : Record) (k : String) (v : Json)
    (h : getField r k = none) : setField r k v = r ++ [(k, v)] := by
  induction r with
  | nil => simp [setField]
  | cons p rest ih =>
      obtain ⟨k1, v1⟩ := p
      by_cases h1 : k1 = k
      · simp [getField, h1] at h
      · simp [getField, h1] at h
        simp [setField, h1, ih h]

theorem setField_eq_self (r : Record) (k : String) (v : Json)
    (h : getField r k = some v) : setField r k v = r := by
  induction r with
  | nil => simp [getField] at h
  | cons p rest ih =>
      obtain ⟨k1, v1⟩ := p
      by_cases h1 : k1 = k
      · simp [getField, h1] at h
        simp [setField, h1, h]
      · simp [getField, h1] at h
        simp [setField, h1, ih h]

theorem getField_mergeUpdates_of_not_mem (U : List (String × Json)) (r : Record) (k : String)
    (h : ∀ v, (k, v) ∉ U) : getField (mergeUpdates r U) k = getField r k := by
  induction U generalizing r with
  | nil => simp [mergeUpdates]
  | cons kv U ih =>
      obtain ⟨k1, v1⟩ := kv
      have hk : k1 ≠ k := by
        intro hh
        exact h v1 (by simp [hh])
      have hrest : ∀ v, (k, v) ∉ U := by
        intro v hv
        exact h v (by simp [hv])
      show getField (mergeUpdates (setField r k1 v1) U) k = getField r k
      rw [ih (setField r k1 v1) hrest, getField_setField_ne r k1 k v1 (fun hh => hk hh.symm)]

theorem getField_mergeUpdates_of_mem (U : List (String × Json)) (r : Record) (k : String)
    (v : Json) (hnd : U.Pairwise (fun a b => a.1 ≠ b.1)) (h : (k, v) ∈ U) :
    getField (mergeUpdates r U) k = some v := by
  induction U generalizing r with
  | nil => simp at h
  | cons kv U ih =>
      obtain ⟨k1, v1⟩ := kv
      rcases List.mem_cons.mp h with h0 | h0
      · rw [Prod.mk.injEq] at h0
        obtain ⟨hk, hv⟩ := h0
        subst hk; subst hv
        have hnot : ∀ w, (k, w) ∉ U := by
          intro w hw
          exact (List.pairwise_cons.mp hnd).1 (k, w) hw rfl
        show getField (mergeUpdates (setField r k v) U) k = some v
        rw [getField_mergeUpdates_of_not_mem U _ k hnot, getField_setField_self]
      · exact ih (setField r k1 v1) (List.pairwise_cons.mp hnd).2 h0

theorem isSome_getField_mergeUpdates (U : List (String × Json)) (r : Record) (k : String)
    (h : (getField r k).isSome) : (getField (mergeUpdates r U) k).isSome := by
  induction U generalizing r with
  | nil => exact h
  | cons kv U ih =>
      obtain ⟨k1, v1⟩ := kv
      show (getField (mergeUpdates (setField r k1 v1) U) k).isSome
      apply ih
      by_cases hk : k = k1
      · subst hk
        rw [getField_setField_self]; rfl
      · rw [getField_setField_ne r k1 k v1 hk]
        exact h

/-! ## Basic lemmas about the store -/

theorem storeGet_storeSet_self (s : Store) (k : Json) (v : List Record) :
    storeGet (storeSet s k v) k = some v := by
  induction s with
  | nil => simp [storeSet, storeGet]
  | cons p rest ih =>
      obtain ⟨k1, v1⟩ := p
      by_cases h : k1 = k
      · simp [storeSet, storeGet, h]
      · simp [storeSet, storeGet, h, ih]

theorem storeGet_storeSet_ne (s : Store) (k k1 : Json) (v : List Record) (h : k1 ≠ k) :
    storeGet (storeSet s k v) k1 = storeGet s k1 := by
  induction s with
  | nil => simp [storeSet, storeGet, Ne.symm h]
  | cons p rest ih =>
      obtain ⟨k2, v2⟩ := p
      by_cases h2 : k2 = k
      · subst h2
        simp [storeSet, storeGet, Ne.symm h]
      · simp [storeSet, storeGet, h2, ih]

theorem mem_storeKeys_storeSet (s : Store) (k k1 : Json) (v : List Record)
    (h : k1 ∈ storeKeys s) : k1 ∈ storeKeys (storeSet s k v) := by
  induction s with
  | nil => simp [storeKeys] at h
  | cons p rest ih =>
      obtain ⟨k2, v2⟩ := p
      by_cases h2 : k2 = k
      · simpa [storeSet, storeKeys, h2] using h
      · simp [storeKeys, storeSet, h2] at h ⊢
        rcases h with h | h
        · exact Or.inl h
        · exact Or.inr (by simpa [storeKeys] using ih (by simpa [storeKeys] using h))

theorem storeGet_isSome_iff_mem (s : Store) (k : Json) :
    (storeGet s k).isSome = true ↔ k ∈ storeKeys s := by
  induction s with
  | nil => simp [storeGet, storeKeys]
  | cons p rest ih =>
      obtain ⟨k1, v1⟩ := p
      by_cases h : k1 = k
      · simp [storeGet, storeKeys, h]
      · simp [storeGet, storeKeys, h, ih, Ne.symm h]

theorem storeGet_mem (s : Store) (k : Json) (recs : List Record)
    (h : storeGet s k = some recs) : (k, recs) ∈ s := by
  induction s with
  | nil => simp [storeGet] at h
  | cons p rest ih =>
      obtain ⟨k1, v1⟩ := p
      by_cases h1 : k1 = k
      · simp [storeGet, h1] at h
        simp [h1, h]
      · simp [storeGet, h1] at h
        exact List.mem_cons_of_mem _ (ih h)

/-! ## Lemmas about the operation loops -/

theorem matchesFilters_nil (r : Record) : matchesFilters r [] = true := rfl

theorem matchesFilters_iff (r : Record) (fs : List (String × Json)) :
    matchesFilters r fs = true ↔ ∀ k v, (k, v) ∈ fs → getField r k = some v := by
  simp only [matchesFilters, List.all_eq_true, decide_eq_true_eq]
  constructor
  · intro h k v hkv
    exact h (k, v) hkv
  · intro h kv hkv
    exact h kv.1 kv.2 hkv

theorem filter_matchesFilters_nil (recs : List Record) :
    recs.filter (fun r => matchesFilters r []) = recs := by
  simp [matchesFilters_nil]

theorem updateFirst_spec (pre : List Record) (r : Record) (post : List Record) (rid : Json)
    (us : List (String × Json)) (hpre : ∀ q ∈ pre, getField q "id" ≠ some rid)
    (hr : getField r "id" = some rid) :
    updateFirst (pre ++ r :: post) rid (Json.obj us)
      = UpdRes.updated (pre ++ mergeUpdates r us :: post) := by
  induction pre with
  | nil => simp [updateFirst, hr]
  | cons q pre ih =>
      have hq : getField q "id" ≠ some rid := hpre q (List.mem_cons_self q pre)
      have hrest : ∀ p ∈ pre, getField p "id" ≠ some rid := by
        intro p hp
        exact hpre p (List.mem_cons_of_mem q hp)
      simp [updateFirst, hq, ih hrest]

theorem updateFirst_notFound (recs : List Record) (rid : Json) (u : Json)
    (h : ∀ q ∈ recs, getField q "id" ≠ some rid) :
    updateFirst recs rid u = UpdRes.notFound := by
  induction recs with
  | nil => rfl
  | cons q recs ih =>
      have hq : getField q "id" ≠ some rid := h q (List.mem_cons_self q recs)
      have hrest : ∀ p ∈ recs, getField p "id" ≠ some rid := by
        intro p hp
        exact h p (List.mem_cons_of_mem q hp)
      simp [updateFirst, hq, ih hrest]

theorem updateFirst_updated_mem (recs : List Record) (rid : Json) (u : Json)
    (rs : List Record) (h : updateFirst recs rid u = UpdRes.updated rs) :
    ∀ q ∈ rs, (∃ p ∈ recs, ∃ us, u = Json.obj us ∧ q = mergeUpdates p us) ∨ q ∈ recs := by
  induction recs generalizing rs with
  | nil => simp [updateFirst] at h
  | cons p recs ih =>
      by_cases hp : getField p "id" = some rid
      · simp only [updateFirst, if_pos hp] at h
        match u, h with
        | Json.obj us, h =>
          cases h
          intro q hq
          rcases List.mem_cons.mp hq with h0 | h0
          · exact Or.inl ⟨p, List.mem_cons_self p recs, us, rfl, h0⟩
          · exact Or.inr (List.mem_cons_of_mem p h0)
      · simp only [updateFirst, if_neg hp] at h
        match hu : updateFirst recs rid u, h with
        | UpdRes.updated rs2, h =>
          cases h
          intro q hq
          rcases List.mem_cons.mp hq with h0 | h0
          · exact Or.inr (by simp [h0])
          · rcases ih rs2 hu q h0 with h1 | h1
            · obtain ⟨p2, hp2, us, hus, hq2⟩ := h1
              exact Or.inl ⟨p2, List.mem_cons_of_mem p hp2, us, hus, hq2⟩
            · exact Or.inr (List.mem_cons_of_mem p h1)

theorem deleteFirst_spec (pre : List Record) (r : Record) (post : List Record) (rid : Json)
    (hpre : ∀ q ∈ pre, getField q "id" ≠ some rid) (hr : getField r "id" = some rid) :
    deleteFirst (pre ++ r :: post) rid = some (pre ++ post) := by
  induction pre with
  | nil => simp [deleteFirst, hr]
  | cons q pre ih =>
      have hq : getField q "id" ≠ some rid := hpre q (List.mem_cons_self q pre)
      have hrest : ∀ p ∈ pre, getField p "id" ≠ some rid := by
        intro p hp
        exact hpre p (List.mem_cons_of_mem q hp)
      simp [deleteFirst, hq, ih hrest]

theorem deleteFirst_none (recs : List Record) (rid : Json)
    (h : ∀ q ∈ recs, getField q "id" ≠ some rid) : deleteFirst recs rid = none := by
  induction recs with
  | nil => rfl
  | cons q recs ih =>
      have hq : getField q "id" ≠ some rid := h q (List.mem_cons_self q recs)
      have hrest : ∀ p ∈ recs, getField p "id" ≠ some rid := by
        intro p hp
        exact h p (List.mem_cons_of_mem q hp)
      simp [deleteFirst, hq, ih hrest]

theorem deleteFirst_subset (recs : List Record) (rid : Json) (rs : List Record)
    (h : deleteFirst recs rid = some rs) : ∀ q ∈ rs, q ∈ recs := by
  induction recs generalizing rs with
  | nil => simp [deleteFirst] at h
  | cons p recs ih =>
      by_cases hp : getField p "id" = some rid
      · simp only [deleteFirst, if_pos hp, Option.some.injEq] at h
        intro q hq
        exact List.mem_cons_of_mem p (h ▸ hq)
      · simp only [deleteFirst, if_neg hp] at h
        match hd : deleteFirst recs rid, h with
        | some rs2, h =>
          cases h
          intro q hq
          rcases List.mem_cons.mp hq with h0 | h0
          · simp [h0]
          · exact List.mem_cons_of_mem p (ih rs2 hd q h0)

theorem insertLoop_gen_le (rs : List Json) : ∀ (g : Nat) (a : List Record) (b : List Json)
    (g2 : Nat), insertLoop rs g = some (a, b, g2) → g ≤ g2 := by
  induction rs with
  | nil =>
      intro g a b g2 h
      simp only [insertLoop, Option.some.injEq, Prod.ext_iff] at h
      omega
  | cons x rs ih =>
      intro g a b g2 h
      cases x with
      | obj r =>
          simp only [insertLoop] at h
          cases hrec : insertLoop rs (g + 1) with
          | none => rw [hrec] at h; simp at h
          | some val =>
              obtain ⟨recs, ids, g3⟩ := val
              rw [hrec] at h
              simp only [Option.some.injEq, Prod.ext_iff] at h
              have := ih (g + 1) recs ids g3 hrec
              omega
      | null => simp [insertLoop] at h
      | bool b2 => simp [insertLoop] at h
      | num n => simp [insertLoop] at h
      | str s => simp [insertLoop] at h
      | arr xs => simp [insertLoop] at h

theorem insertLoop_spec (rs : List Record) : ∀ g : Nat, ∃ newRecs ids,
    insertLoop (rs.map Json.obj) g = some (newRecs, ids, g + rs.length)
    ∧ newRecs.length = rs.length ∧ ids.length = rs.length
    ∧ (∀ j, j < rs.length →
        (∀ v, getField (rs.getD j []) "id" = some v →
          ids.getD j Json.null = v ∧ newRecs.getD j [] = rs.getD j [])
        ∧ (getField (rs.getD j []) "id" = none →
          ids.getD j Json.null = Json.str (freshId (g + j))
          ∧ newRecs.getD j [] = rs.getD j [] ++ [("id", Json.str (freshId (g + j)))])) := by
  induction rs with
  | nil =>
      intro g
      exact ⟨[], [], by simp [insertLoop], rfl, rfl, by intro j hj; simp at hj⟩
  | cons r rs ih =>
      intro g
      obtain ⟨nr, is, heq, hlen1, hlen2, hpt⟩ := ih (g + 1)
      cases hid : getField r "id" with
      | some v =>
          refine ⟨r :: nr, v :: is, ?_, by simp [hlen1], by simp [hlen2], ?_⟩
          · have harith : g + 1 + rs.length = g + (rs.length + 1) := by omega
            have hr2 : setField r "id" v = r := setField_eq_self r "id" v hid
            simp only [List.map_cons, insertLoop, hid, Option.getD_some, heq, hr2, harith,
              List.length_cons]
          · intro j hj
            cases j with
            | zero =>
                constructor
                · intro w hw
                  simp only [List.getD_cons_zero] at hw
                  rw [hid] at hw
                  injection hw with hvw
                  subst hvw
                  simp
                · intro hw
                  simp only [List.getD_cons_zero] at hw
                  rw [hid] at hw
                  cases hw
            | succ j =>
                simp only [List.getD_cons_succ, List.length_cons] at hj ⊢
                have := hpt j (by omega)
                have harith : g + 1 + j = g + (j + 1) := by omega
                rw [harith] at this
                exact this
      | none =>
          refine ⟨(r ++ [("id", Json.str (freshId g))]) :: nr, Json.str (freshId g) :: is,
            ?_, by simp [hlen1], by simp [hlen2], ?_⟩
          · have harith : g + 1 + rs.length = g + (rs.length + 1) := by omega
            have hr2 : setField r "id" (Json.str (freshId g)) = r ++ [("id", Json.str (freshId g))] :=
              setField_eq_append r "id" _ hid
            simp only [List.map_cons, insertLoop, hid, Option.getD_none, heq, hr2, harith,
              List.length_cons]
          · intro j hj
            cases j with
            | zero =>
                constructor
                · intro w hw
                  simp only [List.getD_cons_zero] at hw
                  rw [hid] at hw
                  cases hw
                · intro hw
                  simp only [List.getD_cons_zero]
                  simp
            | succ j =>
                simp only [List.getD_cons_succ, List.length_cons] at hj ⊢
                have := hpt j (by omega)
                have harith : g + 1 + j = g + (j + 1) := by omega
                rw [harith] at this
                exact this

theorem insertLoop_id_isSome (rs : List Json) : ∀ (g : Nat) (newRecs : List Record)
    (ids : List Json) (g2 : Nat), insertLoop rs g = some (newRecs, ids, g2) →
    ∀ r ∈ newRecs, (getField r "id").isSome := by
  induction rs with
  | nil =>
      intro g newRecs ids g2 h
      simp only [insertLoop, Option.some.injEq, Prod.ext_iff] at h
      intro r hr
      rw [← h.1] at hr
      simp at hr
  | cons x rs ih =>
      intro g newRecs ids g2 h
      cases x with
      | obj r0 =>
          simp only [insertLoop] at h
          cases hrec : insertLoop rs (g + 1) with
          | none => rw [hrec] at h; simp at h
          | some val =>
              obtain ⟨recs, ids2, g3⟩ := val
              rw [hrec] at h
              simp only [Option.some.injEq, Prod.ext_iff] at h
              intro r hr
              rw [← h.1] at hr
              rcases List.mem_cons.mp hr with h0 | h0
              · rw [h0, getField_setField_self]
                rfl
              · exact ih (g + 1) recs ids2 g3 hrec r h0
      | null => simp [insertLoop] at h
      | bool b2 => simp [insertLoop] at h
      | num n => simp [insertLoop] at h
      | str s => simp [insertLoop] at h
      | arr xs => simp [insertLoop] at h

/-! ## Lemmas about the fresh-id supply and truthiness -/

theorem freshId_length (n : Nat) : (freshId n).length = 5 + n := by
  have h5 : ("uuid-" : String).length = 5 := by decide
  simp [freshId, String.length_append, h5]

theorem freshId_ne_empty (n : Nat) : freshId n ≠ "" := by
  intro h
  have := congrArg String.length h
  rw [freshId_length] at this
  simp at this

theorem freshId_injective (m n : Nat) (h : freshId m = freshId n) : m = n := by
  have := congrArg String.length h
  rw [freshId_length, freshId_length] at this
  omega

theorem truthy_str_iff (s : String) : (Json.str s).truthy = true ↔ s ≠ "" := by
  constructor
  · intro h hs
    subst hs
    exact absurd h (by decide)
  · intro h
    have he : s.isEmpty = false := by
      cases he : s.isEmpty
      · rfl
      · exact absurd ((String.isEmpty_iff s).mp he) h
    simp [Json.truthy, he]

theorem truthy_obj_iff (fs : List (String × Json)) :
    (Json.obj fs).truthy = true ↔ fs ≠ [] := by
  simp [Json.truthy]

theorem truthy_arr_iff (xs : List Json) : (Json.arr xs).truthy = true ↔ xs ≠ [] := by
  simp [Json.truthy]

/-! ## State-shape, invariant and reachability lemmas about the dispatcher -/

theorem handleParams_state_shape (fn : String) (ps : List (String × Json)) (st : StoreState)
    (resp : Json) (st2 : StoreState) (h : handleParams fn ps st = some (resp, st2)) :
    st2 = st ∨ ((∃ tn rs, st2.tables = storeSet st.tables tn rs) ∧ st.gen ≤ st2.gen) := by
  simp only [handleParams] at h
  repeat' split at h
  all_goals
    first
    | exact Option.noConfusion h
    | (simp only [Option.some.injEq, Prod.mk.injEq] at h
       obtain ⟨hr, hs⟩ := h
       first
       | exact Or.inl hs.symm
       | (cases hs
          first
          | exact Or.inl rfl
          | exact Or.inr ⟨⟨_, _, rfl⟩, le_refl _⟩
          | (rename_i heq
             exact Or.inr ⟨⟨_, _, rfl⟩, insertLoop_gen_le _ _ _ _ _ heq⟩)))

theorem storeInv_storeSet (s : Store) (k : Json) (rs : List Record)
    (hs : storeInv s) (hr : ∀ r ∈ rs, (getField r "id").isSome = true) :
    storeInv (storeSet s k rs) := by
  induction s with
  | nil =>
      intro tn recs hmem r hrr
      simp [storeSet] at hmem
      obtain ⟨h1, h2⟩ := hmem
      subst h2
      exact hr r hrr
  | cons p rest ih =>
      obtain ⟨k1, v1⟩ := p
      have hsrest : storeInv rest := by
        intro tn recs hmem r hrr
        exact hs tn recs (List.mem_cons_of_mem _ hmem) r hrr
      by_cases h1 : k1 = k
      · intro tn recs hmem r hrr
        simp only [storeSet, if_pos h1] at hmem
        rcases List.mem_cons.mp hmem with h0 | h0
        · rw [Prod.mk.injEq] at h0
          obtain ⟨hh1, hh2⟩ := h0
          subst hh2
          exact hr r hrr
        · exact hs tn recs (List.mem_cons_of_mem _ h0) r hrr
      · intro tn recs hmem r hrr
        simp only [storeSet, if_neg h1] at hmem
        rcases List.mem_cons.mp hmem with h0 | h0
        · exact hs tn recs (h0 ▸ List.mem_cons_self _ _) r hrr
        · exact ih hsrest tn recs h0 r hrr

theorem storeInv_getD (s : Store) (k : Json) (hs : storeInv s) :
    ∀ r ∈ (storeGet s k).getD [], (getField r "id").isSome = true := by
  cases hsg : storeGet s k with
  | none => simp
  | some recs =>
      simp only [Option.getD_some]
      exact hs k recs (storeGet_mem s k recs hsg)

theorem handleParams_inv (fn : String) (ps : List (String × Json)) (st : StoreState)
    (resp : Json) (st2 : StoreState) (hinv : storeInv st.tables)
    (h : handleParams fn ps st = some (resp, st2)) : storeInv st2.tables := by
  simp only [handleParams] at h
  split at h
  · -- query: never mutates the store
    repeat' split at h
    all_goals
      first
      | exact Option.noConfusion h
      | (simp only [Option.some.injEq, Prod.mk.injEq] at h
         cases h.2
         exact hinv)
  · split at h
    · -- insert
      split at h
      · simp only [Option.some.injEq, Prod.mk.injEq] at h
        cases h.2
        exact hinv
      · split at h
        · simp only [Option.some.injEq, Prod.mk.injEq] at h
          cases h.2
          exact hinv
        · split at h
          next rs heqR =>
            split at h
            next newRecs ids g2 heqI =>
              simp only [Option.some.injEq, Prod.mk.injEq] at h
              cases h.2
              apply storeInv_storeSet _ _ _ hinv
              intro r hrr
              rcases List.mem_append.mp hrr with h0 | h0
              · exact storeInv_getD st.tables _ hinv r h0
              · exact insertLoop_id_isSome _ _ _ _ _ heqI r h0
            next heqI => exact Option.noConfusion h
          next x heqR => exact Option.noConfusion h
    · split at h
      · -- update
        split at h
        · simp only [Option.some.injEq, Prod.mk.injEq] at h
          cases h.2
          exact hinv
        · split at h
          · simp only [Option.some.injEq, Prod.mk.injEq] at h
            cases h.2
            exact hinv
          · split at h
            · simp only [Option.some.injEq, Prod.mk.injEq] at h
              cases h.2
              exact hinv
            · split at h
              next heqS =>
                simp only [Option.some.injEq, Prod.mk.injEq] at h
                cases h.2
                exact hinv
              next recs heqS =>
                split at h
                next rs heqU =>
                  simp only [Option.some.injEq, Prod.mk.injEq] at h
                  cases h.2
                  apply storeInv_storeSet _ _ _ hinv
                  intro r hrr
                  rcases updateFirst_updated_mem _ _ _ _ heqU r hrr with h0 | h0
                  · obtain ⟨p, hp, us, hus, hq⟩ := h0
                    exact hq ▸ isSome_getField_mergeUpdates us p "id"
                      (hinv _ _ (storeGet_mem _ _ _ heqS) p hp)
                  · exact hinv _ _ (storeGet_mem _ _ _ heqS) r h0
                next heqU =>
                  simp only [Option.some.injEq, Prod.mk.injEq] at h
                  cases h.2
                  exact hinv
                next heqU => exact Option.noConfusion h
      · split at h
        · -- delete
          split at h
          · simp only [Option.some.injEq, Prod.mk.injEq] at h
            cases h.2
            exact hinv
          · split at h
            · simp only [Option.some.injEq, Prod.mk.injEq] at h
              cases h.2
              exact hinv
            · split at h
              next heqS =>
                simp only [Option.some.injEq, Prod.mk.injEq] at h
                cases h.2
                exact hinv
              next recs heqS =>
                split at h
                next rs heqD =>
                  simp only [Option.some.injEq, Prod.mk.injEq] at h
                  cases h.2
                  apply storeInv_storeSet _ _ _ hinv
                  intro r hrr
                  exact hinv _ _ (storeGet_mem _ _ _ heqS) r
                    (deleteFirst_subset _ _ _ heqD r hrr)
                next heqD =>
                  simp only [Option.some.injEq, Prod.mk.injEq] at h
                  cases h.2
                  exact hinv
        · split at h
          · -- list_tables
            simp only [Option.some.injEq, Prod.mk.injEq] at h
            cases h.2
            exact hinv
          · -- unsupported function
            simp only [Option.some.injEq, Prod.mk.injEq] at h
            cases h.2
            exact hinv

theorem handleParams_keys (fn : String) (ps : List (String × Json)) (st : StoreState)
    (resp : Json) (st2 : StoreState) (k : Json) (h : handleParams fn ps st = some (resp, st2))
    (hk : k ∈ storeKeys st.tables) : k ∈ storeKeys st2.tables := by
  rcases handleParams_state_shape fn ps st resp st2 h with h0 | ⟨⟨tn, rs, ht⟩, _⟩
  · rw [h0]
    exact hk
  · rw [ht]
    exact mem_storeKeys_storeSet _ _ _ _ hk

theorem handle_gen_le (fn : String) (body : Body) (st : StoreState) (resp : Json)
    (st2 : StoreState) (h : handle fn body st = some (resp, st2)) : st.gen ≤ st2.gen := by
  cases body with
  | invalid =>
      simp only [handle, Option.some.injEq, Prod.mk.injEq] at h
      rw [← h.2]
  | empty =>
      rcases handleParams_state_shape fn [] st resp st2 h with h0 | ⟨-, hg⟩
      · rw [h0]
      · exact hg
  | json ps =>
      rcases handleParams_state_shape fn ps st resp st2 h with h0 | ⟨-, hg⟩
      · rw [h0]
      · exact hg

theorem handle_keys (fn : String) (body : Body) (st : StoreState) (resp : Json)
    (st2 : StoreState) (k : Json) (h : handle fn body st = some (resp, st2))
    (hk : k ∈ storeKeys st.tables) : k ∈ storeKeys st2.tables := by
  cases body with
  | invalid =>
      simp only [handle, Option.some.injEq, Prod.mk.injEq] at h
      rw [← h.2]
      exact hk
  | empty => exact handleParams_keys fn [] st resp st2 k h hk
  | json ps => exact handleParams_keys fn ps st resp st2 k h hk

theorem handle_inv (fn : String) (body : Body) (st : StoreState) (resp : Json)
    (st2 : StoreState) (hinv : storeInv st.tables) (h : handle fn body st = some (resp, st2)) :
    storeInv st2.tables := by
  cases body with
  | invalid =>
      simp only [handle, Option.some.injEq, Prod.mk.injEq] at h
      rw [← h.2]
      exact hinv
  | empty => exact handleParams_inv fn [] st resp st2 hinv h
  | json ps => exact handleParams_inv fn ps st resp st2 hinv h

theorem reachable_gen_le (st st2 : StoreState) (h : reachable st st2) : st.gen ≤ st2.gen := by
  induction h with
  | refl => exact le_refl _
  | tail hab hbc ih =>
      obtain ⟨fn, body, resp, hstep⟩ := hbc
      exact le_trans ih (handle_gen_le _ _ _ _ _ hstep)

theorem reachable_keys (st st2 : StoreState) (k : Json) (h : reachable st st2)
    (hk : k ∈ storeKeys st.tables) : k ∈ storeKeys st2.tables := by
  induction h with
  | refl => exact hk
  | tail hab hbc ih =>
      obtain ⟨fn, body, resp, hstep⟩ := hbc
      exact handle_keys _ _ _ _ _ _ hstep ih

/-! ## Claim theorems -/

/-- C7: for every function name outside the five supported operations the
dispatcher returns `{"error": "Function <name> not supported"}`; a body that
is present but not valid JSON yields `{"error": "Invalid JSON in request
body"}`; an empty body is treated as an empty parameter mapping, so each
operation with required parameters then fails with its own
missing-parameter error (`table parameter is required`) rather than a
malformed-input error. -/
theorem claim7_dispatch :
    (∀ (fn : String) (ps : List (String × Json)) (st : StoreState),
      fn ≠ "query" → fn ≠ "insert" → fn ≠ "update" → fn ≠ "delete" → fn ≠ "list_tables" →
      handle fn (Body.json ps) st = some (errObj ("Function " ++ fn ++ " not supported"), st))
    ∧ (∀ (fn : String) (st : StoreState),
      handle fn Body.invalid st = some (errObj "Invalid JSON in request body", st))
    ∧ (∀ (fn : String) (st : StoreState), handle fn Body.empty st = handleParams fn [] st)
    ∧ (∀ st : StoreState,
      handle "query" Body.empty st = some (errObj "table parameter is required", st))
    ∧ (∀ st : StoreState,
      handle "insert" Body.empty st = some (errObj "table parameter is required", st))
    ∧ (∀ st : StoreState,
      handle "update" Body.empty st = some (errObj "table parameter is required", st))
    ∧ (∀ st : StoreState,
      handle "delete" Body.empty st = some (errObj "table parameter is required", st)) := by
  refine ⟨?_, ?_, ?_, ?_, ?_, ?_, ?_⟩
  · intro fn ps st h1 h2 h3 h4 h5
    simp [handle, handleParams, h1, h2, h3, h4, h5]
  · intro fn st
    rfl
  · intro fn st
    rfl
  · intro st
    rfl
  · intro st
    rfl
  · intro st
    rfl
  · intro st
    rfl

/-- C7 witness: the unsupported-function branch at the concrete function
name `frobnicate`. -/
theorem claim7_dispatch_witness :
    handle "frobnicate" (Body.json []) seedState
      = some (errObj "Function frobnicate not supported", seedState) :=
  claim7_dispatch.1 "frobnicate" [] seedState (by decide) (by decide) (by decide)
    (by decide) (by decide)

/-- C10: required-parameter checks are Python truthiness checks, not
presence checks: a present-but-falsy `table` value is rejected as "table
parameter is required" by all four data operations; a present-but-falsy
`id` (e.g. `""`, `0`, `false`, `null`) is rejected as "id parameter is
required" by update and delete before the table is even looked up; an
empty `updates` mapping and an empty `records` sequence are rejected with
their own "required" errors; in every case the store is unchanged. -/
theorem claim10_truthiness :
    (∀ (st : StoreState) (ps : List (String × Json)) (v : Json),
      getField ps "table" = some v → v.truthy = false →
      handleParams "query" ps st = some (errObj "table parameter is required", st))
    ∧ (∀ (st : StoreState) (ps : List (String × Json)) (v : Json),
      getField ps "table" = some v → v.truthy = false →
      handleParams "insert" ps st = some (errObj "table parameter is required", st))
    ∧ (∀ (st : StoreState) (ps : List (String × Json)) (v : Json),
      getField ps "table" = some v → v.truthy = false →
      handleParams "update" ps st = some (errObj "table parameter is required", st))
    ∧ (∀ (st : StoreState) (ps : List (String × Json)) (v : Json),
      getField ps "table" = some v → v.truthy = false →
      handleParams "delete" ps st = some (errObj "table parameter is required", st))
    ∧ (∀ (st : StoreState) (ps : List (String × Json)) (tv v : Json),
      getField ps "table" = some tv → tv.truthy = true →
      getField ps "id" = some v → v.truthy = false →
      handleParams "update" ps st = some (errObj "id parameter is required", st))
    ∧ (∀ (st : StoreState) (ps : List (String × Json)) (tv v : Json),
      getField ps "table" = some tv → tv.truthy = true →
      getField ps "id" = some v → v.truthy = false →
      handleParams "delete" ps st = some (errObj "id parameter is required", st))
    ∧ (∀ (st : StoreState) (ps : List (String × Json)) (tv iv : Json),
      getField ps "table" = some tv → tv.truthy = true →
      getField ps "id" = some iv → iv.truthy = true →
      getField ps "updates" = some (Json.obj []) →
      handleParams "update" ps st = some (errObj "updates parameter is required", st))
    ∧ (∀ (st : StoreState) (ps : List (String × Json)) (tv : Json),
      getField ps "table" = some tv → tv.truthy = true →
      getField ps "records" = some (Json.arr []) →
      handleParams "insert" ps st = some (errObj "records parameter is required", st)) := by
  refine ⟨?_, ?_, ?_, ?_, ?_, ?_, ?_, ?_⟩
  · intro st ps v hv hf
    simp [handleParams, hv, hf]
  · intro st ps v hv hf
    simp [handleParams, hv, hf]
  · intro st ps v hv hf
    simp [handleParams, hv, hf]
  · intro st ps v hv hf
    simp [handleParams, hv, hf]
  · intro st ps tv v ht htt hv hf
    simp [handleParams, ht, htt, hv, hf]
  · intro st ps tv v ht htt hv hf
    simp [handleParams, ht, htt, hv, hf]
  · intro st ps tv iv ht htt hi hit hu
    have h0 : (Json.obj ([] : List (String × Json))).truthy = false := rfl
    simp [handleParams, ht, htt, hi, hit, hu, h0]
  · intro st ps tv ht htt hr
    have h0 : (Json.arr ([] : List Json)).truthy = false := rfl
    simp [handleParams, ht, htt, hr, h0]

/-- C10 witness: `update` on the seeded store with `table = "users"` and the
falsy id `""` is rejected as missing id (never reaching the scan), and
likewise for the other conjuncts at concrete falsy inputs. -/
theorem claim10_truthiness_witness :
    handleParams "update" [("table", Json.str "users"), ("id", Json.str "")] seedState
      = some (errObj "id parameter is required", seedState)
    ∧ handleParams "query" [("table", Json.str "")] seedState
      = some (errObj "table parameter is required", seedState)
    ∧ handleParams "delete" [("table", Json.str "users"), ("id", Json.num 0)] seedState
      = some (errObj "id parameter is required", seedState)
    ∧ handleParams "update" [("table", Json.str "users"), ("id", Json.str "1"),
        ("updates", Json.obj [])] seedState
      = some (errObj "updates parameter is required", seedState)
    ∧ handleParams "insert" [("table", Json.str "users"), ("records", Json.arr [])] seedState
      = some (errObj "records parameter is required", seedState) :=
  ⟨claim10_truthiness.2.2.2.2.1 seedState _ (Json.str "users") (Json.str "") (by decide)
      (by decide) (by decide) (by decide),
   claim10_truthiness.1 seedState _ (Json.str "") (by decide) (by decide),
   claim10_truthiness.2.2.2.2.2.1 seedState _ (Json.str "users") (Json.num 0) (by decide)
      (by decide) (by decide) (by decide),
   claim10_truthiness.2.2.2.2.2.2.1 seedState _ (Json.str "users") (Json.str "1") (by decide)
      (by decide) (by decide) (by decide) (by decide),
   claim10_truthiness.2.2.2.2.2.2.2 seedState _ (Json.str "users") (by decide) (by decide)
      (by decide)⟩

/-- C1: for every table `T` present in the store and every filter mapping
`F`, `query(T, F)` returns exactly the records of `T` for which every
`(key, value)` pair of `F` has the key present with a structurally equal
value, in table order (a `List.filter` of the table), it leaves the store
unchanged, and with the empty filter mapping it returns all of `T`'s
records unchanged. -/
theorem claim1_query (st : StoreState) (T : String) (F : List (String × Json))
    (ps : List (String × Json)) (recs : List Record)
    (hT : getField ps "table" = some (Json.str T))
    (hF : getField ps "filters" = some (Json.obj F))
    (hTne : T ≠ "")
    (hrecs : storeGet st.tables (Json.str T) = some recs) :
    handleParams "query" ps st
      = some (Json.obj [("data", Json.arr ((recs.filter
          (fun r => matchesFilters r F)).map Json.obj))], st)
    ∧ (∀ r : Record, matchesFilters r F = true ↔ ∀ k v, (k, v) ∈ F → getField r k = some v)
    ∧ (F = [] → recs.filter (fun r => matchesFilters r F) = recs) := by
  have htr : (Json.str T).truthy = true := (truthy_str_iff T).mpr hTne
  refine ⟨?_, fun r => matchesFilters_iff r F, fun hF0 => hF0 ▸ filter_matchesFilters_nil recs⟩
  cases hF0 : F with
  | nil =>
      have h0 : (Json.obj ([] : List (String × Json))).truthy = false := rfl
      simp [handleParams, hT, hF, htr, hrecs, hF0, h0, filter_matchesFilters_nil]
  | cons kv F2 =>
      have h1 : (Json.obj (kv :: F2)).truthy = true := rfl
      simp [handleParams, hT, hF, htr, hrecs, hF0, h1]

/-- C1 witness: the spec's concrete scenario — on the seed state,
`query("users", {"name": "John Doe"})` returns exactly John Doe's record. -/
theorem claim1_query_witness :
    handleParams "query" [("table", Json.str "users"),
        ("filters", Json.obj [("name", Json.str "John Doe")])] seedState
      = some (Json.obj [("data", Json.arr (([
          [("id", Json.str "1"), ("name", Json.str "John Doe"), ("email", Json.str "john@example.com")],
          [("id", Json.str "2"), ("name", Json.str "Jane Smith"), ("email", Json.str "jane@example.com")]
        ].filter (fun r => matchesFilters r [("name", Json.str "John Doe")])).map Json.obj))],
        seedState) :=
  (claim1_query seedState "users" [("name", Json.str "John Doe")]
    [("table", Json.str "users"), ("filters", Json.obj [("name", Json.str "John Doe")])]
    _ (by decide) (by decide) (by decide) (by decide)).1

/-- C5: every `update` or `delete` request that fails with a not-found error
(unknown table, or no record with the given id) returns the error with the
store state completely unchanged, and the error message names the offending
table and, for a missing record, the offending id (`pyStr` is the model of
Python `str()` used by the f-string). -/
theorem claim5_notfound_atomic :
    (∀ (st : StoreState) (ps : List (String × Json)) (T : String) (i u : Json),
      getField ps "table" = some (Json.str T) → T ≠ "" →
      getField ps "id" = some i → i.truthy = true →
      getField ps "updates" = some u → u.truthy = true →
      storeGet st.tables (Json.str T) = none →
      handleParams "update" ps st = some (errObj ("Table " ++ T ++ " not found"), st))
    ∧ (∀ (st : StoreState) (ps : List (String × Json)) (T : String) (i u : Json)
        (recs : List Record),
      getField ps "table" = some (Json.str T) → T ≠ "" →
      getField ps "id" = some i → i.truthy = true →
      getField ps "updates" = some u → u.truthy = true →
      storeGet st.tables (Json.str T) = some recs →
      (∀ q ∈ recs, getField q "id" ≠ some i) →
      handleParams "update" ps st
        = some (errObj ("Record with id " ++ pyStr i ++ " not found in table " ++ T), st))
    ∧ (∀ (st : StoreState) (ps : List (String × Json)) (T : String) (i : Json),
      getField ps "table" = some (Json.str T) → T ≠ "" →
      getField ps "id" = some i → i.truthy = true →
      storeGet st.tables (Json.str T) = none →
      handleParams "delete" ps st = some (errObj ("Table " ++ T ++ " not found"), st))
    ∧ (∀ (st : StoreState) (ps : List (String × Json)) (T : String) (i : Json)
        (recs : List Record),
      getField ps "table" = some (Json.str T) → T ≠ "" →
      getField ps "id" = some i → i.truthy = true →
      storeGet st.tables (Json.str T) = some recs →
      (∀ q ∈ recs, getField q "id" ≠ some i) →
      handleParams "delete" ps st
        = some (errObj ("Record with id " ++ pyStr i ++ " not found in table " ++ T), st)) := by
  refine ⟨?_, ?_, ?_, ?_⟩
  · intro st ps T i u hT hTne hi hit hu hut hsg
    have htr : (Json.str T).truthy = true := (truthy_str_iff T).mpr hTne
    simp [handleParams, hT, hi, hu, htr, hit, hut, hsg, pyStr]
  · intro st ps T i u recs hT hTne hi hit hu hut hsg hnm
    have htr : (Json.str T).truthy = true := (truthy_str_iff T).mpr hTne
    have hnf : updateFirst recs i u = UpdRes.notFound := updateFirst_notFound recs i u hnm
    simp [handleParams, hT, hi, hu, htr, hit, hut, hsg, hnf, pyStr]
  · intro st ps T i hT hTne hi hit hsg
    have htr : (Json.str T).truthy = true := (truthy_str_iff T).mpr hTne
    simp [handleParams, hT, hi, htr, hit, hsg, pyStr]
  · intro st ps T i recs hT hTne hi hit hsg hnm
    have htr : (Json.str T).truthy = true := (truthy_str_iff T).mpr hTne
    have hnf : deleteFirst recs i = none := deleteFirst_none recs i hnm
    simp [handleParams, hT, hi, htr, hit, hsg, hnf, pyStr]

/-- C5 witness: the spec's concrete scenario — deleting the nonexistent id
"99" from the seeded `users` table reports the not-found error and leaves
the state unchanged. -/
theorem claim5_notfound_atomic_witness :
    handleParams "delete" [("table", Json.str "users"), ("id", Json.str "99")] seedState
      = some (errObj ("Record with id " ++ pyStr (Json.str "99") ++ " not found in table "
          ++ "users"), seedState) :=
  claim5_notfound_atomic.2.2.2 seedState
    [("table", Json.str "users"), ("id", Json.str "99")] "users" (Json.str "99")
    [[("id", Json.str "1"), ("name", Json.str "John Doe"), ("email", Json.str "john@example.com")],
     [("id", Json.str "2"), ("name", Json.str "Jane Smith"), ("email", Json.str "jane@example.com")]]
    (by decide) (by decide) (by decide) (by decide) (by decide) (by decide)

/-- C2: `update(T, i, U)` on a table whose first record with id `i` is `r`
(no earlier record matches) merges every `(k, v)` of `U` into `r` —
overwriting existing fields and adding new ones, leaving all other fields
of `r` unchanged — leaves every other record (including later duplicates
in `post`) untouched, and returns `{"success": true}`. -/
theorem claim2_update (st : StoreState) (T : String) (i : Json) (U : List (String × Json))
    (ps : List (String × Json)) (pre post : List Record) (r : Record)
    (hT : getField ps "table" = some (Json.str T)) (hTne : T ≠ "")
    (hi : getField ps "id" = some i) (hit : i.truthy = true)
    (hU : getField ps "updates" = some (Json.obj U)) (hUne : U ≠ [])
    (hUnd : U.Pairwise (fun a b => a.1 ≠ b.1))
    (hrecs : storeGet st.tables (Json.str T) = some (pre ++ r :: post))
    (hpre : ∀ q ∈ pre, getField q "id" ≠ some i)
    (hr : getField r "id" = some i) :
    handleParams "update" ps st
      = some (successObj,
          ⟨storeSet st.tables (Json.str T) (pre ++ mergeUpdates r U :: post), st.gen⟩)
    ∧ (∀ k v, (k, v) ∈ U → getField (mergeUpdates r U) k = some v)
    ∧ (∀ k, (∀ v, (k, v) ∉ U) → getField (mergeUpdates r U) k = getField r k) := by
  have htr : (Json.str T).truthy = true := (truthy_str_iff T).mpr hTne
  have hut : (Json.obj U).truthy = true := (truthy_obj_iff U).mpr hUne
  have hupd : updateFirst (pre ++ r :: post) i (Json.obj U)
      = UpdRes.updated (pre ++ mergeUpdates r U :: post) :=
    updateFirst_spec pre r post i U hpre hr
  refine ⟨?_, fun k v hkv => getField_mergeUpdates_of_mem U r k v hUnd hkv,
    fun k hk => getField_mergeUpdates_of_not_mem U r k hk⟩
  simp [handleParams, hT, hi, hU, htr, hit, hut, hrecs, hupd]

/-- C2 witness: the spec's concrete scenario — `update("posts", "1",
{"title": "Edited"})` on the seed state merges the new title into the first
post and reports success. -/
theorem claim2_update_witness :
    handleParams "update" [("table", Json.str "posts"), ("id", Json.str "1"),
        ("updates", Json.obj [("title", Json.str "Edited")])] seedState
      = some (successObj,
          ⟨storeSet seedState.tables (Json.str "posts")
            ([] ++ mergeUpdates
              [("id", Json.str "1"), ("title", Json.str "First Post"),
               ("content", Json.str "Hello World"), ("user_id", Json.str "1")]
              [("title", Json.str "Edited")] ::
              [[("id", Json.str "2"), ("title", Json.str "Second Post"),
                ("content", Json.str "Another post"), ("user_id", Json.str "2")]]),
            seedState.gen⟩) :=
  (claim2_update seedState "posts" (Json.str "1") [("title", Json.str "Edited")]
    [("table", Json.str "posts"), ("id", Json.str "1"),
     ("updates", Json.obj [("title", Json.str "Edited")])]
    []
    [[("id", Json.str "2"), ("title", Json.str "Second Post"),
      ("content", Json.str "Another post"), ("user_id", Json.str "2")]]
    [("id", Json.str "1"), ("title", Json.str "First Post"),
     ("content", Json.str "Hello World"), ("user_id", Json.str "1")]
    (by decide) (by decide) (by decide) (by decide) (by decide) (by decide)
    (by decide) (by decide) (by decide) (by decide)).1

/-- C3 counterexample: the claim's second half — "repeating delete(T, i)
immediately after a successful delete(T, i) reports the not-found error"
for every table and id — is false when the table holds duplicate ids,
which insert permits. From the seed state, inserting a second record with
the explicit id "1" into `users` and then deleting id "1" twice yields two
successful deletes; the second one does not report not-found. -/
theorem claim3_delete_counterexample :
    handleParams "insert" [("table", Json.str "users"),
        ("records", Json.arr [Json.obj [("id", Json.str "1"), ("name", Json.str "dup")]])]
        seedState
      = some (Json.obj [("ids", Json.arr [Json.str "1"]), ("success", Json.bool true)],
          ⟨[(Json.str "users",
             [[("id", Json.str "1"), ("name", Json.str "John Doe"), ("email", Json.str "john@example.com")],
              [("id", Json.str "2"), ("name", Json.str "Jane Smith"), ("email", Json.str "jane@example.com")],
              [("id", Json.str "1"), ("name", Json.str "dup")]]),
            (Json.str "posts",
             [[("id", Json.str "1"), ("title", Json.str "First Post"), ("content", Json.str "Hello World"),
               ("user_id", Json.str "1")],
              [("id", Json.str "2"), ("title", Json.str "Second Post"), ("content", Json.str "Another post"),
               ("user_id", Json.str "2")]]),
            (Json.str "comments",
             [[("id", Json.str "1"), ("post_id", Json.str "1"), ("user_id", Json.str "2"),
               ("content", Json.str "Great post!")],
              [("id", Json.str "2"), ("post_id", Json.str "1"), ("user_id", Json.str "1"),
               ("content", Json.str "Thanks!")]])], 1⟩)
    ∧ handleParams "delete" [("table", Json.str "users"), ("id", Json.str "1")]
        ⟨[(Json.str "users",
           [[("id", Json.str "1"), ("name", Json.str "John Doe"), ("email", Json.str "john@example.com")],
            [("id", Json.str "2"), ("name", Json.str "Jane Smith"), ("email", Json.str "jane@example.com")],
            [("id", Json.str "1"), ("name", Json.str "dup")]]),
          (Json.str "posts",
           [[("id", Json.str "1"), ("title", Json.str "First Post"), ("content", Json.str "Hello World"),
             ("user_id", Json.str "1")],
            [("id", Json.str "2"), ("title", Json.str "Second Post"), ("content", Json.str "Another post"),
             ("user_id", Json.str "2")]]),
          (Json.str "comments",
           [[("id", Json.str "1"), ("post_id", Json.str "1"), ("user_id", Json.str "2"),
             ("content", Json.str "Great post!")],
            [("id", Json.str "2"), ("post_id", Json.str "1"), ("user_id", Json.str "1"),
             ("content", Json.str "Thanks!")]])], 1⟩
      = some (successObj,
          ⟨[(Json.str "users",
             [[("id", Json.str "2"), ("name", Json.str "Jane Smith"), ("email", Json.str "jane@example.com")],
              [("id", Json.str "1"), ("name", Json.str "dup")]]),
            (Json.str "posts",
             [[("id", Json.str "1"), ("title", Json.str "First Post"), ("content", Json.str "Hello World"),
               ("user_id", Json.str "1")],
              [("id", Json.str "2"), ("title", Json.str "Second Post"), ("content", Json.str "Another post"),
               ("user_id", Json.str "2")]]),
            (Json.str "comments",
             [[("id", Json.str "1"), ("post_id", Json.str "1"), ("user_id", Json.str "2"),
               ("content", Json.str "Great post!")],
              [("id", Json.str "2"), ("post_id", Json.str "1"), ("user_id", Json.str "1"),
               ("content", Json.str "Thanks!")]])], 1⟩)
    ∧ handleParams "delete" [("table", Json.str "users"), ("id", Json.str "1")]
        ⟨[(Json.str "users",
           [[("id", Json.str "2"), ("name", Json.str "Jane Smith"), ("email", Json.str "jane@example.com")],
            [("id", Json.str "1"), ("name", Json.str "dup")]]),
          (Json.str "posts",
           [[("id", Json.str "1"), ("title", Json.str "First Post"), ("content", Json.str "Hello World"),
             ("user_id", Json.str "1")],
            [("id", Json.str "2"), ("title", Json.str "Second Post"), ("content", Json.str "Another post"),
             ("user_id", Json.str "2")]]),
          (Json.str "comments",
           [[("id", Json.str "1"), ("post_id", Json.str "1"), ("user_id", Json.str "2"),
             ("content", Json.str "Great post!")],
            [("id", Json.str "2"), ("post_id", Json.str "1"), ("user_id", Json.str "1"),
             ("content", Json.str "Thanks!")]])], 1⟩
      = some (successObj,
          ⟨[(Json.str "users",
             [[("id", Json.str "2"), ("name", Json.str "Jane Smith"), ("email", Json.str "jane@example.com")]]),
            (Json.str "posts",
             [[("id", Json.str "1"), ("title", Json.str "First Post"), ("content", Json.str "Hello World"),
               ("user_id", Json.str "1")],
              [("id", Json.str "2"), ("title", Json.str "Second Post"), ("content", Json.str "Another post"),
               ("user_id", Json.str "2")]]),
            (Json.str "comments",
             [[("id", Json.str "1"), ("post_id", Json.str "1"), ("user_id", Json.str "2"),
               ("content", Json.str "Great post!")],
              [("id", Json.str "2"), ("post_id", Json.str "1"), ("user_id", Json.str "1"),
               ("content", Json.str "Thanks!")]])], 1⟩) := by
  refine ⟨by decide, by decide, by decide⟩

/-- C3 (amended): `delete(T, i)` on a table whose first record with id `i`
is `r` removes exactly that record, shifting the subsequent records left so
the table shrinks by exactly one, and returns `{"success": true}`; and —
provided no record with id `i` remains after the removal (in particular
whenever ids in the table are unique) — immediately repeating
`delete(T, i)` reports the not-found error. -/
theorem claim3_delete (st : StoreState) (T : String) (i : Json)
    (ps : List (String × Json)) (pre post : List Record) (r : Record)
    (hT : getField ps "table" = some (Json.str T)) (hTne : T ≠ "")
    (hi : getField ps "id" = some i) (hit : i.truthy = true)
    (hrecs : storeGet st.tables (Json.str T) = some (pre ++ r :: post))
    (hpre : ∀ q ∈ pre, getField q "id" ≠ some i)
    (hr : getField r "id" = some i) :
    handleParams "delete" ps st
      = some (successObj, ⟨storeSet st.tables (Json.str T) (pre ++ post), st.gen⟩)
    ∧ (pre ++ post).length + 1 = (pre ++ r :: post).length
    ∧ ((∀ q ∈ pre ++ post, getField q "id" ≠ some i) →
        handleParams "delete" ps ⟨storeSet st.tables (Json.str T) (pre ++ post), st.gen⟩
          = some (errObj ("Record with id " ++ pyStr i ++ " not found in table " ++ T),
              ⟨storeSet st.tables (Json.str T) (pre ++ post), st.gen⟩)) := by
  have htr : (Json.str T).truthy = true := (truthy_str_iff T).mpr hTne
  have hdel : deleteFirst (pre ++ r :: post) i = some (pre ++ post) :=
    deleteFirst_spec pre r post i hpre hr
  refine ⟨?_, by simp; omega, ?_⟩
  · simp [handleParams, hT, hi, htr, hit, hrecs, hdel]
  · intro hnone
    have hsg2 : storeGet (storeSet st.tables (Json.str T) (pre ++ post)) (Json.str T)
        = some (pre ++ post) := storeGet_storeSet_self _ _ _
    have hdel2 : deleteFirst (pre ++ post) i = none := deleteFirst_none _ i hnone
    simp [handleParams, hT, hi, htr, hit, hsg2, hdel2, pyStr]

/-- C3 witness: on the seed state, `delete("users", "2")` removes exactly
Jane Smith's record (table length 2 → 1) and a repeated delete of id "2"
then reports not-found. -/
theorem claim3_delete_witness :
    handleParams "delete" [("table", Json.str "users"), ("id", Json.str "2")] seedState
      = some (successObj, ⟨storeSet seedState.tables (Json.str "users")
          ([[("id", Json.str "1"), ("name", Json.str "John Doe"),
             ("email", Json.str "john@example.com")]] ++ []), seedState.gen⟩)
    ∧ ([[("id", Json.str "1"), ("name", Json.str "John Doe"),
         ("email", Json.str "john@example.com")]] ++ ([] : List Record)).length + 1
        = ([[("id", Json.str "1"), ("name", Json.str "John Doe"),
             ("email", Json.str "john@example.com")]] ++
           [("id", Json.str "2"), ("name", Json.str "Jane Smith"),
            ("email", Json.str "jane@example.com")] :: ([] : List Record)).length
    ∧ handleParams "delete" [("table", Json.str "users"), ("id", Json.str "2")]
        ⟨storeSet seedState.tables (Json.str "users")
          ([[("id", Json.str "1"), ("name", Json.str "John Doe"),
             ("email", Json.str "john@example.com")]] ++ []), seedState.gen⟩
      = some (errObj ("Record with id " ++ pyStr (Json.str "2") ++ " not found in table "
          ++ "users"),
          ⟨storeSet seedState.tables (Json.str "users")
            ([[("id", Json.str "1"), ("name", Json.str "John Doe"),
               ("email", Json.str "john@example.com")]] ++ []), seedState.gen⟩) := by
  have h := claim3_delete seedState "users" (Json.str "2")
    [("table", Json.str "users"), ("id", Json.str "2")]
    [[("id", Json.str "1"), ("name", Json.str "John Doe"), ("email", Json.str "john@example.com")]]
    []
    [("id", Json.str "2"), ("name", Json.str "Jane Smith"), ("email", Json.str "jane@example.com")]
    (by decide) (by decide) (by decide) (by decide) (by decide) (by decide) (by decide)
  exact ⟨h.1, h.2.1, h.2.2 (by decide)⟩

/-- C4: `insert(T, R)` on a non-empty sequence of records appends one new
record per input record, in order, at the end of the table; a record that
already has an `id` field keeps that id exactly and is stored unchanged; a
record lacking `id` gets a freshly generated id appended; and the response
is `{"ids": [assigned-or-existing ids in input order], "success": true}`. -/
theorem claim4_insert (st : StoreState) (T : String) (rs : List Record)
    (ps : List (String × Json))
    (hT : getField ps "table" = some (Json.str T)) (hTne : T ≠ "")
    (hR : getField ps "records" = some (Json.arr (rs.map Json.obj))) (hne : rs ≠ []) :
    ∃ (newRecs : List Record) (ids : List Json),
      handleParams "insert" ps st
        = some (Json.obj [("ids", Json.arr ids), ("success", Json.bool true)],
            ⟨storeSet st.tables (Json.str T)
              ((storeGet st.tables (Json.str T)).getD [] ++ newRecs), st.gen + rs.length⟩)
      ∧ newRecs.length = rs.length ∧ ids.length = rs.length
      ∧ (∀ j, j < rs.length →
          (∀ v, getField (rs.getD j []) "id" = some v →
            ids.getD j Json.null = v ∧ newRecs.getD j [] = rs.getD j [])
          ∧ (getField (rs.getD j []) "id" = none →
            ids.getD j Json.null = Json.str (freshId (st.gen + j))
            ∧ newRecs.getD j [] = rs.getD j [] ++ [("id", Json.str (freshId (st.gen + j)))])) := by
  obtain ⟨newRecs, ids, heq, h1, h2, h3⟩ := insertLoop_spec rs st.gen
  refine ⟨newRecs, ids, ?_, h1, h2, h3⟩
  have htr : (Json.str T).truthy = true := (truthy_str_iff T).mpr hTne
  have hrt : (Json.arr (rs.map Json.obj)).truthy = true := by
    rw [truthy_arr_iff]
    simp [hne]
  simp [handleParams, hT, hR, htr, hrt, heq]

/-- C4 witness: the spec's concrete scenario — inserting one id-less comment
record into the seeded `comments` table assigns it a fresh id. -/
theorem claim4_insert_witness :
    ∃ (newRecs : List Record) (ids : List Json),
      handleParams "insert" [("table", Json.str "comments"),
          ("records", Json.arr ([[("post_id", Json.str "2"), ("user_id", Json.str "1"),
            ("content", Json.str "Nice")]].map Json.obj))] seedState
        = some (Json.obj [("ids", Json.arr ids), ("success", Json.bool true)],
            ⟨storeSet seedState.tables (Json.str "comments")
              ((storeGet seedState.tables (Json.str "comments")).getD [] ++ newRecs),
              seedState.gen + 1⟩)
      ∧ newRecs.length = 1 ∧ ids.length = 1
      ∧ (∀ j, j < 1 →
          (∀ v, getField ([[("post_id", Json.str "2"), ("user_id", Json.str "1"),
              ("content", Json.str "Nice")]].getD j []) "id" = some v →
            ids.getD j Json.null = v
            ∧ newRecs.getD j []
              = [[("post_id", Json.str "2"), ("user_id", Json.str "1"),
                  ("content", Json.str "Nice")]].getD j [])
          ∧ (getField ([[("post_id", Json.str "2"), ("user_id", Json.str "1"),
              ("content", Json.str "Nice")]].getD j []) "id" = none →
            ids.getD j Json.null = Json.str (freshId (seedState.gen + j))
            ∧ newRecs.getD j []
              = [[("post_id", Json.str "2"), ("user_id", Json.str "1"),
                  ("content", Json.str "Nice")]].getD j []
                ++ [("id", Json.str (freshId (seedState.gen + j)))])) :=
  claim4_insert seedState "comments"
    [[("post_id", Json.str "2"), ("user_id", Json.str "1"), ("content", Json.str "Nice")]]
    [("table", Json.str "comments"),
     ("records", Json.arr ([[("post_id", Json.str "2"), ("user_id", Json.str "1"),
       ("content", Json.str "Nice")]].map Json.obj))]
    (by decide) (by decide) (by decide) (by decide)

/-- C6: inserting a non-empty record sequence under a table name absent from
the store creates that table on the fly and succeeds; the new table holds
exactly the inserted records; and after any further sequence of
successfully handled requests the table name is still among the store's
keys, so every subsequent `list_tables` call returns it. -/
theorem claim6_create_table (st : StoreState) (T : String) (rs : List Record)
    (ps : List (String × Json))
    (hT : getField ps "table" = some (Json.str T)) (hTne : T ≠ "")
    (hR : getField ps "records" = some (Json.arr (rs.map Json.obj))) (hne : rs ≠ [])
    (habs : storeGet st.tables (Json.str T) = none) :
    ∃ (resp : Json) (st2 : StoreState),
      handleParams "insert" ps st = some (resp, st2)
      ∧ (∃ newRecs : List Record, storeGet st2.tables (Json.str T) = some newRecs
          ∧ newRecs.length = rs.length)
      ∧ Json.str T ∈ storeKeys st2.tables
      ∧ (∀ st3, reachable st2 st3 →
          Json.str T ∈ storeKeys st3.tables
          ∧ ∀ ps2, handleParams "list_tables" ps2 st3
              = some (Json.obj [("tables", Json.arr (storeKeys st3.tables))], st3)) := by
  obtain ⟨newRecs, ids, heq, h1, h2, h3⟩ := insertLoop_spec rs st.gen
  have htr : (Json.str T).truthy = true := (truthy_str_iff T).mpr hTne
  have hrt : (Json.arr (rs.map Json.obj)).truthy = true := by
    rw [truthy_arr_iff]
    simp [hne]
  refine ⟨Json.obj [("ids", Json.arr ids), ("success", Json.bool true)],
    ⟨storeSet st.tables (Json.str T)
      ((storeGet st.tables (Json.str T)).getD [] ++ newRecs), st.gen + rs.length⟩,
    ?_, ?_, ?_, ?_⟩
  · simp [handleParams, hT, hR, htr, hrt, heq]
  · refine ⟨newRecs, ?_, h1⟩
    rw [habs]
    simpa using storeGet_storeSet_self st.tables (Json.str T) newRecs
  · rw [← storeGet_isSome_iff_mem]
    rw [storeGet_storeSet_self]
    rfl
  · intro st3 hsteps
    have hmem3 : Json.str T ∈ storeKeys st3.tables := by
      apply reachable_keys _ _ _ hsteps
      rw [← storeGet_isSome_iff_mem]
      show (storeGet (storeSet st.tables (Json.str T) _) (Json.str T)).isSome = true
      rw [storeGet_storeSet_self]
      rfl
    exact ⟨hmem3, fun ps2 => rfl⟩

/-- C6 witness: inserting a record into the previously-unknown table
`projects` on the seed state creates it; `list_tables` afterwards
(the empty further-request sequence) lists the store's keys, which
include `projects`. -/
theorem claim6_create_table_witness :
    ∃ (resp : Json) (st2 : StoreState),
      handleParams "insert" [("table", Json.str "projects"),
          ("records", Json.arr ([[("name", Json.str "demo")]].map Json.obj))] seedState
        = some (resp, st2)
      ∧ (∃ newRecs : List Record, storeGet st2.tables (Json.str "projects") = some newRecs
          ∧ newRecs.length = 1)
      ∧ Json.str "projects" ∈ storeKeys st2.tables
      ∧ (∀ st3, reachable st2 st3 →
          Json.str "projects" ∈ storeKeys st3.tables
          ∧ ∀ ps2, handleParams "list_tables" ps2 st3
              = some (Json.obj [("tables", Json.arr (storeKeys st3.tables))], st3)) :=
  claim6_create_table seedState "projects" [[("name", Json.str "demo")]]
    [("table", Json.str "projects"),
     ("records", Json.arr ([[("name", Json.str "demo")]].map Json.obj))]
    (by decide) (by decide) (by decide) (by decide) (by decide)

/-- C8: inserting a single record lacking an `id` field returns a generated
id that is present and non-empty, and the ids generated by two such inserts
— the second taken at any state reachable from the first's post-state by
further successfully handled requests — are distinct: generated ids are
never reused (with `str(uuid.uuid4())` modelled as the injective
fresh-identifier supply `freshId`). -/
theorem claim8_generated_ids (stA stA2 stB stB2 : StoreState)
    (psA psB : List (String × Json)) (TA TB : String) (recA recB : Record)
    (respA respB : Json)
    (hTA : getField psA "table" = some (Json.str TA)) (hTAne : TA ≠ "")
    (hRA : getField psA "records" = some (Json.arr [Json.obj recA]))
    (hidA : getField recA "id" = none)
    (hA : handleParams "insert" psA stA = some (respA, stA2))
    (hreach : reachable stA2 stB)
    (hTB : getField psB "table" = some (Json.str TB)) (hTBne : TB ≠ "")
    (hRB : getField psB "records" = some (Json.arr [Json.obj recB]))
    (hidB : getField recB "id" = none)
    (hB : handleParams "insert" psB stB = some (respB, stB2)) :
    respA = Json.obj [("ids", Json.arr [Json.str (freshId stA.gen)]), ("success", Json.bool true)]
    ∧ respB = Json.obj [("ids", Json.arr [Json.str (freshId stB.gen)]), ("success", Json.bool true)]
    ∧ freshId stA.gen ≠ ""
    ∧ freshId stB.gen ≠ ""
    ∧ freshId stA.gen ≠ freshId stB.gen := by
  have htrA : (Json.str TA).truthy = true := (truthy_str_iff TA).mpr hTAne
  have htrB : (Json.str TB).truthy = true := (truthy_str_iff TB).mpr hTBne
  have harrA : (Json.arr [Json.obj recA]).truthy = true := rfl
  have harrB : (Json.arr [Json.obj recB]).truthy = true := rfl
  have hloopA : insertLoop [Json.obj recA] stA.gen
      = some ([setField recA "id" (Json.str (freshId stA.gen))],
          [Json.str (freshId stA.gen)], stA.gen + 1) := by
    simp [insertLoop, hidA]
  have hloopB : insertLoop [Json.obj recB] stB.gen
      = some ([setField recB "id" (Json.str (freshId stB.gen))],
          [Json.str (freshId stB.gen)], stB.gen + 1) := by
    simp [insertLoop, hidB]
  simp only [handleParams, hTA, hRA] at hA
  simp [htrA, harrA, hloopA] at hA
  simp only [handleParams, hTB, hRB] at hB
  simp [htrB, harrB, hloopB] at hB
  obtain ⟨hrespA, hstA2⟩ := hA
  obtain ⟨hrespB, hstB2⟩ := hB
  have hgenA2 : stA2.gen = stA.gen + 1 := by
    rw [← hstA2]
  have hle : stA2.gen ≤ stB.gen := reachable_gen_le stA2 stB hreach
  refine ⟨hrespA.symm, hrespB.symm, freshId_ne_empty _, freshId_ne_empty _, ?_⟩
  intro hcontra
  have := freshId_injective stA.gen stB.gen hcontra
  omega

/-- C9: every record of every table of the seed state carries an `id` key;
every successfully handled request preserves this invariant (insert writes
an `id` key into each appended record, update's merge never removes a
field, delete only removes whole records). -/
theorem claim9_id_invariant :
    storeInv seedState.tables
    ∧ (∀ (fn : String) (body : Body) (st : StoreState) (resp : Json) (st2 : StoreState),
        storeInv st.tables → handle fn body st = some (resp, st2) → storeInv st2.tables)
    ∧ (∀ (r : Record) (U : List (String × Json)) (k : String),
        (getField r k).isSome = true → (getField (mergeUpdates r U) k).isSome = true) := by
  refine ⟨?_, ?_, ?_⟩
  · intro tn recs hmem r hr
    simp [seedState, seedTables] at hmem
    rcases hmem with ⟨h1, h2⟩ | ⟨h1, h2⟩ | ⟨h1, h2⟩ <;>
      (subst h2
       revert hr
       revert r
       decide)
  · intro fn body st resp st2 hinv h
    exact handle_inv fn body st resp st2 hinv h
  · intro r U k h
    exact isSome_getField_mergeUpdates U r k h

/-- C9 witness: the invariant-preservation conjunct applied to a concrete
successfully handled request — deleting user "1" from the seed state —
starting from the seed invariant. -/
theorem claim9_id_invariant_witness :
    storeInv (⟨[(Json.str "users",
        [[("id", Json.str "2"), ("name", Json.str "Jane Smith"),
          ("email", Json.str "jane@example.com")]]),
      (Json.str "posts",
        [[("id", Json.str "1"), ("title", Json.str "First Post"),
          ("content", Json.str "Hello World"), ("user_id", Json.str "1")],
         [("id", Json.str "2"), ("title", Json.str "Second Post"),
          ("content", Json.str "Another post"), ("user_id", Json.str "2")]]),
      (Json.str "comments",
        [[("id", Json.str "1"), ("post_id", Json.str "1"), ("user_id", Json.str "2"),
          ("content", Json.str "Great post!")],
         [("id", Json.str "2"), ("post_id", Json.str "1"), ("user_id", Json.str "1"),
          ("content", Json.str "Thanks!")]])], 0⟩ : StoreState).tables :=
  claim9_id_invariant.2.1 "delete"
    (Body.json [("table", Json.str "users"), ("id", Json.str "1")]) seedState successObj
    _ claim9_id_invariant.1 (by decide)

/-- C8 witness: two consecutive single-record id-less inserts into
`comments` starting from the seed state (the empty further-request
sequence between them) produce the distinct non-empty generated ids
`freshId 0` and `freshId 1`. -/
theorem claim8_generated_ids_witness :
    Json.obj [("ids", Json.arr [Json.str (freshId 0)]), ("success", Json.bool true)]
      = Json.obj [("ids", Json.arr [Json.str (freshId seedState.gen)]),
          ("success", Json.bool true)]
    ∧ Json.obj [("ids", Json.arr [Json.str (freshId 1)]), ("success", Json.bool true)]
      = Json.obj [("ids", Json.arr [Json.str (freshId
          (⟨storeSet seedState.tables (Json.str "comments")
            ((storeGet seedState.tables (Json.str "comments")).getD []
              ++ [[("content", Json.str "hi"), ("id", Json.str (freshId 0))]]),
            1⟩ : StoreState).gen)]), ("success", Json.bool true)]
    ∧ freshId seedState.gen ≠ ""
    ∧ freshId (⟨storeSet seedState.tables (Json.str "comments")
        ((storeGet seedState.tables (Json.str "comments")).getD []
          ++ [[("content", Json.str "hi"), ("id", Json.str (freshId 0))]]),
        1⟩ : StoreState).gen ≠ ""
    ∧ freshId seedState.gen ≠ freshId (⟨storeSet seedState.tables (Json.str "comments")
        ((storeGet seedState.tables (Json.str "comments")).getD []
          ++ [[("content", Json.str "hi"), ("id", Json.str (freshId 0))]]),
        1⟩ : StoreState).gen :=
  claim8_generated_ids seedState
    ⟨storeSet seedState.tables (Json.str "comments")
      ((storeGet seedState.tables (Json.str "comments")).getD []
        ++ [[("content", Json.str "hi"), ("id", Json.str (freshId 0))]]), 1⟩
    ⟨storeSet seedState.tables (Json.str "comments")
      ((storeGet seedState.tables (Json.str "comments")).getD []
        ++ [[("content", Json.str "hi"), ("id", Json.str (freshId 0))]]), 1⟩
    ⟨storeSet (storeSet seedState.tables (Json.str "comments")
      ((storeGet seedState.tables (Json.str "comments")).getD []
        ++ [[("content", Json.str "hi"), ("id", Json.str (freshId 0))]]))
      (Json.str "comments")
      ((storeGet (storeSet seedState.tables (Json.str "comments")
        ((storeGet seedState.tables (Json.str "comments")).getD []
          ++ [[("content", Json.str "hi"), ("id", Json.str (freshId 0))]]))
        (Json.str "comments")).getD []
        ++ [[("content", Json.str "hi2"), ("id", Json.str (freshId 1))]]), 2⟩
    [("table", Json.str "comments"), ("records", Json.arr [Json.obj [("content", Json.str "hi")]])]
    [("table", Json.str "comments"), ("records", Json.arr [Json.obj [("content", Json.str "hi2")]])]
    "comments" "comments"
    [("content", Json.str "hi")] [("content", Json.str "hi2")]
    (Json.obj [("ids", Json.arr [Json.str (freshId 0)]), ("success", Json.bool true)])
    (Json.obj [("ids", Json.arr [Json.str (freshId 1)]), ("success", Json.bool true)])
    (by decide) (by decide) (by decide) (by decide) (by decide)
    Relation.ReflTransGen.refl
    (by decide) (by decide) (by decide) (by decide) (by decide)
